import Mathlib

/-!
# Verification of the VulnBoard board-state engine

A shallow embedding of the parts of the VulnBoard repository that the
specification's claims are about:

* `useTaskManagement` (src/hooks/useTaskManagement.js): the view projector
  `processedTasks` (search / label / priority filters and the eight-key sort)
  and the task construction in `addNewTask`;
* `inputSanitization.js`: `sanitizeInput`, `sanitizeEmail`, `sanitizeNumber`
  and the labels branch of `sanitizeTaskData`;
* `authSlice.js`: the `login` and `signup` thunks.

JavaScript numbers appearing in task data (ratings, comparator results) are
modelled as `ℚ`; `NaN` (where it can arise, e.g. from an out-of-enum priority
looked up in `priorityOrder`) is modelled as `none : Option ℚ`.  ISO-8601
`createdAt` strings are modelled by the instant (`ℤ`) they denote, which is
all the code ever uses them for (`new Date(x) - new Date(y)`).  Strings are
Lean `String`s / `List Char`; JavaScript's Unicode case conversion is
modelled by `Char.toLower` (the two agree on ASCII, which is all the claims
exercise).

Code of the repository that is *not* among the provided sources (the
`kanbanSlice` reducers, `filterTasksByLabel`, `persistState`) is modelled
from the specification; each such definition carries a doc comment starting
with `Modelled from the spec:`.
-/

namespace VB

/-! ## Task data model (spec §3, and the fields `addNewTask` constructs) -/

/-- A task id is a number or a string (spec §3: `id : string|number`). -/
inductive TaskId where
  | num (n : ℤ)
  | str (s : String)
deriving DecidableEq

/-- A task, with exactly the fields `addNewTask` (useTaskManagement.js)
constructs: id, title, details, labels, priority, rating, starred, status,
createdAt, dueDate, priorityColor.  `rating` is `Option ℚ`: the projector
guards it with `task.rating || 0`, so it may be absent on stored data. -/
structure Task where
  id : TaskId
  title : String
  details : String
  labels : List String
  priority : String
  rating : Option ℚ
  starred : Bool
  status : String
  createdAt : ℤ
  dueDate : String
  priorityColor : String
deriving DecidableEq

/-- A column record (spec §3). -/
structure Column where
  id : String
  title : String
  order : ℤ
deriving DecidableEq

/-- A label record (spec §3). -/
structure Label where
  id : String
  name : String
  color : String
deriving DecidableEq

/-- The kanban slice state: `columns`, the per-column ordered task lists
(an association list keyed by column id, the normalized Redux shape), and
`labels`. -/
structure KanbanState where
  columns : List Column
  tasks : List (String × List Task)
  labels : List Label
deriving DecidableEq

/-- Look up a column's stored task list. -/
def lookupTasks (st : KanbanState) (cid : String) : Option (List Task) :=
  (st.tasks.find? (fun ct => ct.1 == cid)).map (fun ct => ct.2)

/-! ## The sort stage of the view projector

`processedTasks` sorts with `Array.prototype.sort`, which ECMAScript
requires to be a *stable* sort; we model it as a stable insertion sort
driven by the JavaScript comparator.  A comparator returns `Option ℚ`
(`none` = `NaN`, which arises from `priorityOrder[p]` being `undefined`
for a priority outside the enum); the sort moves `a` past `b` exactly when
the comparator result is `> 0` (`NaN` is not `> 0`). -/

/-- A JavaScript comparator result is "greater than zero" (`NaN` is not). -/
def jsGt : Option ℚ → Bool
  | some q => decide (0 < q)
  | none => false

/-- Insert `a` into `l` in front of the first element `b` with
`¬ (cmp a b > 0)`: the unique placement a stable sort gives the
originally-earliest element. -/
def insertSorted (c : Task → Task → Option ℚ) (a : Task) : List Task → List Task
  | [] => [a]
  | b :: bs => if jsGt (c a b) then b :: insertSorted c a bs else a :: b :: bs

/-- Stable sort by a JavaScript comparator (model of the ECMAScript-mandated
stable `Array.prototype.sort`). -/
def stableSort (c : Task → Task → Option ℚ) : List Task → List Task
  | [] => []
  | a :: as => insertSorted c a (stableSort c as)

/-- The lookup object `priorityOrder = { Critical: 4, High: 3, Medium: 2, Low: 1 }`;
an out-of-enum key yields `undefined` (`none`). -/
def priorityRank (p : String) : Option ℚ :=
  if p = "Critical" then some 4
  else if p = "High" then some 3
  else if p = "Medium" then some 2
  else if p = "Low" then some 1
  else none

/-- JavaScript subtraction on possibly-`NaN` operands. -/
def jsSub : Option ℚ → Option ℚ → Option ℚ
  | some a, some b => some (a - b)
  | _, _ => none

/-- The comparison `a.title.localeCompare(b.title)` modelled as code-point comparison
(locale-aware collation is still a total order with `cmp s s = 0`). -/
def strCmp (a b : String) : ℚ :=
  if a < b then -1 else if b < a then 1 else 0

/-- The read `(t.rating || 0)`: a missing rating reads as `0` (a stored `0` is
falsy and also reads as `0`). -/
def ratingOr0 (t : Task) : ℚ := t.rating.getD 0

/-- Comparator `(a, b) => new Date(b.createdAt) - new Date(a.createdAt)`. -/
def cmpDate (a b : Task) : Option ℚ := some ((b.createdAt : ℚ) - (a.createdAt : ℚ))

/-- Comparator `(a, b) => new Date(a.createdAt) - new Date(b.createdAt)`. -/
def cmpDateAsc (a b : Task) : Option ℚ := some ((a.createdAt : ℚ) - (b.createdAt : ℚ))

/-- Comparator `(a, b) => priorityOrder[b.priority] - priorityOrder[a.priority]`. -/
def cmpPriority (a b : Task) : Option ℚ :=
  jsSub (priorityRank b.priority) (priorityRank a.priority)

/-- Comparator `(a, b) => priorityOrder[a.priority] - priorityOrder[b.priority]`. -/
def cmpPriorityAsc (a b : Task) : Option ℚ :=
  jsSub (priorityRank a.priority) (priorityRank b.priority)

/-- Comparator `(a, b) => a.title.localeCompare(b.title)`. -/
def cmpTitle (a b : Task) : Option ℚ := some (strCmp a.title b.title)

/-- Comparator `(a, b) => b.title.localeCompare(a.title)`. -/
def cmpTitleDesc (a b : Task) : Option ℚ := some (strCmp b.title a.title)

/-- Comparator `(a, b) => (b.rating || 0) - (a.rating || 0)`. -/
def cmpRating (a b : Task) : Option ℚ := some (ratingOr0 b - ratingOr0 a)

/-- Comparator `(a, b) => (a.rating || 0) - (b.rating || 0)`. -/
def cmpRatingAsc (a b : Task) : Option ℚ := some (ratingOr0 a - ratingOr0 b)

/-- The sort stage of `processedTasks`: the `if`/`else if` chain on
`filters.sort`; an unrecognised key sorts nothing. -/
def applySort (sort : String) (l : List Task) : List Task :=
  if sort = "date" then stableSort cmpDate l
  else if sort = "date-asc" then stableSort cmpDateAsc l
  else if sort = "priority" then stableSort cmpPriority l
  else if sort = "priority-asc" then stableSort cmpPriorityAsc l
  else if sort = "title" then stableSort cmpTitle l
  else if sort = "title-desc" then stableSort cmpTitleDesc l
  else if sort = "rating" then stableSort cmpRating l
  else if sort = "rating-asc" then stableSort cmpRatingAsc l
  else l

/-! ## The filter stages of the view projector -/

/-- The `filters.label` field: absent/null, a single label id (falsy when
`""`), or an array of label ids. -/
inductive LabelFilter where
  | unset
  | single (lid : String)
  | multi (lids : List String)
deriving DecidableEq

/-- The ephemeral filter/sort specification consumed by `processedTasks`
(`search`/`priority` are falsy exactly when empty). -/
structure FilterSpec where
  search : String
  label : LabelFilter
  priority : String
  sort : String
deriving DecidableEq

/-- Lower-cased characters of a string (`s.toLowerCase()`). -/
def lowerChars (s : String) : List Char := s.data.map Char.toLower

/-- Substring containment, `hay.includes(needle)`. -/
def containsSub (needle hay : List Char) : Bool := decide (needle <:+: hay)

/-- The search predicate of `processedTasks`:
`task.title.toLowerCase().includes(q.toLowerCase()) ||
 task.details.toLowerCase().includes(q.toLowerCase())`. -/
def matchesSearch (q : String) (t : Task) : Bool :=
  containsSub (lowerChars q) (lowerChars t.title) ||
    containsSub (lowerChars q) (lowerChars t.details)

/-- The multi-label predicate of `processedTasks`:
`filters.label.some(labelId => task.labels.includes(labelId))`. -/
def matchesAnyLabel (lids : List String) (t : Task) : Bool :=
  lids.any (fun lid => t.labels.contains lid)

/-- Modelled from the spec: `filterTasksByLabel` (src/utils, not among the
provided sources) — "if `label` is a single id, keep tasks whose `labels`
set contains it" (spec §4.2). -/
def filterTasksByLabel (ts : List Task) (lid : String) : List Task :=
  ts.filter (fun t => t.labels.contains lid)

/-- Search stage: `if (filters.search) { columnTasks.filter(...) }`. -/
def searchStep (f : FilterSpec) (l : List Task) : List Task :=
  if f.search ≠ "" then l.filter (matchesSearch f.search) else l

/-- Label stage: `if (filters.label) { Array.isArray ? OR-filter : single }`. -/
def labelStep (f : FilterSpec) (l : List Task) : List Task :=
  match f.label with
  | .unset => l
  | .single lid => if lid ≠ "" then filterTasksByLabel l lid else l
  | .multi lids => l.filter (matchesAnyLabel lids)

/-- Priority stage: `if (filters.priority) { filter(t => t.priority === p) }`. -/
def priorityStep (f : FilterSpec) (l : List Task) : List Task :=
  if f.priority ≠ "" then l.filter (fun t => t.priority == f.priority) else l

/-- The three filter stages of `processedTasks`, in source order. -/
def filterPipeline (f : FilterSpec) (l : List Task) : List Task :=
  priorityStep f (labelStep f (searchStep f l))

/-- The per-column projection computed by `processedTasks`
(useTaskManagement.js lines 745–804): copy, filter, sort. -/
def processColumn (f : FilterSpec) (stored : List Task) : List Task :=
  applySort f.sort (filterPipeline f stored)

/-- The whole projection: `result[columnId] = ...` for each stored column. -/
def processedTasks (f : FilterSpec) (tasks : List (String × List Task)) :
    List (String × List Task) :=
  tasks.map (fun ct => (ct.1, processColumn f ct.2))

/-! ## `sanitizeInput` (inputSanitization.js lines 23–61)

Each regex replacement of the source becomes one pass over the character
list.  The recursive passes carry a fuel argument equal to the input length
(each step consumes at least one character, so the fuel never runs out);
this keeps them structurally recursive and hence kernel-evaluable. -/

/-- The control characters removed first:
`/[\x00-\x08\x0B\x0C\x0E-\x1F\x7F]/g`. -/
def isBadControl (c : Char) : Bool :=
  c.toNat ≤ 0x08 || c.toNat = 0x0B || c.toNat = 0x0C ||
    (0x0E ≤ c.toNat && c.toNat ≤ 0x1F) || c.toNat = 0x7F

/-- The characters removed by `/[<>\"']/g`. -/
def isDanger (c : Char) : Bool :=
  c = '<' || c = '>' || c = '"' || c = '\''

/-- Skip up to and including the first `'>'` (the unique match of the
greedy tag body `[^>]*` followed by `>`); `none` when no `'>'` remains,
in which case the regex `/<[^>]*>/` has no match at this `'<'`. -/
def dropTag : List Char → Option (List Char)
  | [] => none
  | c :: cs => if c = '>' then some cs else dropTag cs

/-- One left-to-right pass of `.replace(/<[^>]*>/g, '')`. -/
def stripTagsGo : Nat → List Char → List Char
  | 0, l => l
  | _, [] => []
  | fuel + 1, c :: cs =>
    if c = '<' then
      match dropTag cs with
      | some rest => stripTagsGo fuel rest
      | none => c :: stripTagsGo fuel cs
    else c :: stripTagsGo fuel cs

/-- Pass `.replace(/<[^>]*>/g, '')`: remove HTML tags. -/
def stripTags (l : List Char) : List Char := stripTagsGo l.length l

/-- Does the list start with `javascript:` up to case?  (`/javascript:/gi`). -/
def startsWithJsProto (l : List Char) : Bool :=
  (l.take 11).map Char.toLower = "javascript:".data

/-- One left-to-right pass of `.replace(/javascript:/gi, '')`; like the
JavaScript `replace`, matches are removed and scanning resumes after the
removed text (the output is not re-scanned). -/
def stripJsProtoGo : Nat → List Char → List Char
  | 0, l => l
  | _, [] => []
  | fuel + 1, c :: cs =>
    if startsWithJsProto (c :: cs) then stripJsProtoGo fuel ((c :: cs).drop 11)
    else c :: stripJsProtoGo fuel cs

/-- Pass `.replace(/javascript:/gi, '')`. -/
def stripJsProto (l : List Char) : List Char := stripJsProtoGo l.length l

/-- A regex `\w` character: `[A-Za-z0-9_]`. -/
def isWordChar (c : Char) : Bool :=
  ('a' ≤ c && c ≤ 'z') || ('A' ≤ c && c ≤ 'Z') || ('0' ≤ c && c ≤ '9') || c = '_'

/-- A regex `\s` character (on the ASCII range the claims exercise). -/
def isSpaceChar (c : Char) : Bool :=
  c = ' ' || c = '\t' || c = '\n' || c = '\r' ||
    c.toNat = 0x0B || c.toNat = 0x0C

/-- Match `/on\w+\s*=/i` at the head of the list, returning the remainder
after the match.  Because `\w`, `\s` and `=` are pairwise disjoint, the
backtracking regex matches exactly: `on`, the maximal word-character run
(nonempty), the maximal whitespace run, then `=`. -/
def matchOnHandler (l : List Char) : Option (List Char) :=
  match l with
  | c1 :: c2 :: rest =>
    if c1.toLower = 'o' && c2.toLower = 'n' then
      let w := rest.takeWhile isWordChar
      if w.isEmpty then none
      else
        match (rest.dropWhile isWordChar).dropWhile isSpaceChar with
        | e :: r => if e = '=' then some r else none
        | [] => none
    else none
  | _ => none

/-- One left-to-right pass of `.replace(/on\w+\s*=/gi, '')`. -/
def stripOnHandlersGo : Nat → List Char → List Char
  | 0, l => l
  | _, [] => []
  | fuel + 1, c :: cs =>
    match matchOnHandler (c :: cs) with
    | some rest => stripOnHandlersGo fuel rest
    | none => c :: stripOnHandlersGo fuel cs

/-- Pass `.replace(/on\w+\s*=/gi, '')`: remove inline event handlers. -/
def stripOnHandlers (l : List Char) : List Char := stripOnHandlersGo l.length l

/-- The whitespace removed by `String.prototype.trim` (ASCII range; the
other trimmed code points cannot survive the earlier control strip). -/
def isTrimChar (c : Char) : Bool :=
  c = ' ' || c = '\t' || c = '\n' || c = '\r' ||
    c.toNat = 0x0B || c.toNat = 0x0C

/-- Trimming, `.trim()`. -/
def trimChars (l : List Char) : List Char :=
  ((l.dropWhile isTrimChar).reverse.dropWhile isTrimChar).reverse

/-- The options record of `sanitizeInput` (`maxLength` is a length, hence a
natural number; the source default is `{1000, false, true}`). -/
structure SanOptions where
  maxLength : Nat
  allowHTML : Bool
  preserveNewlines : Bool
deriving DecidableEq

/-- The defaulted options of `sanitizeInput`. -/
def defaultSanOptions : SanOptions := ⟨1000, false, true⟩

/-- The body of `sanitizeInput` on an actual string, step by step as in the
source: control strip; the four HTML-escaping passes when `!allowHTML`;
newline flattening when `!preserveNewlines`; trim; length truncation. -/
def sanitizeChars (input : List Char) (o : SanOptions) : List Char :=
  let s1 := input.filter (fun c => !isBadControl c)
  let s2 :=
    if o.allowHTML then s1
    else stripOnHandlers (stripJsProto ((stripTags s1).filter (fun c => !isDanger c)))
  let s3 :=
    if o.preserveNewlines then s2
    else s2.map (fun c => if c = '\r' || c = '\n' then ' ' else c)
  let s4 := trimChars s3
  if o.maxLength < s4.length then s4.take o.maxLength else s4

/-- A JavaScript value passed to `sanitizeInput`: a string, or anything
else (the source returns `''` for every non-string). -/
inductive JsVal where
  | str (s : String)
  | nonString
deriving DecidableEq

/-- Embeds `sanitizeInput(input, options)` (inputSanitization.js lines 23–61). -/
def sanitizeInput (v : JsVal) (o : SanOptions) : String :=
  match v with
  | .str s => ⟨sanitizeChars s.data o⟩
  | .nonString => ""

/-! ## `sanitizeEmail` (inputSanitization.js lines 74–89) -/

/-- The characters kept by `.replace(/[^a-z0-9@.\-_+]/g, '')` (applied
after `.toLowerCase()`). -/
def emailKeep (c : Char) : Bool :=
  ('a' ≤ c && c ≤ 'z') || ('0' ≤ c && c ≤ '9') ||
    c = '@' || c = '.' || c = '-' || c = '_' || c = '+'

/-- A character of the regex class `[a-zA-Z0-9._%+-]` (local part). -/
def emailLocalChar (c : Char) : Bool :=
  ('a' ≤ c && c ≤ 'z') || ('A' ≤ c && c ≤ 'Z') || ('0' ≤ c && c ≤ '9') ||
    c = '.' || c = '_' || c = '%' || c = '+' || c = '-'

/-- A character of the regex class `[a-zA-Z0-9.-]` (domain part). -/
def emailDomainChar (c : Char) : Bool :=
  ('a' ≤ c && c ≤ 'z') || ('A' ≤ c && c ≤ 'Z') || ('0' ≤ c && c ≤ '9') ||
    c = '.' || c = '-'

/-- An ASCII letter (the regex class `[a-zA-Z]`). -/
def isAsciiLetter (c : Char) : Bool :=
  ('a' ≤ c && c ≤ 'z') || ('A' ≤ c && c ≤ 'Z')

/-- The test `/^[a-zA-Z0-9._%+-]+@[a-zA-Z0-9.-]+\.[a-zA-Z]{2,}$/.test(s)`.  Since
none of the classes contain `@` and `[a-zA-Z]` contains no dot, the regex
matches iff: the part before the first `@` is a nonempty local-class run,
an `@` is present, the domain suffix after the *last* dot is ≥ 2 letters,
and the domain part before that dot is a nonempty domain-class run. -/
def emailRegexTest (s : List Char) : Bool :=
  let localPart := s.takeWhile (fun c => c ≠ '@')
  match s.dropWhile (fun c => c ≠ '@') with
  | '@' :: domain =>
    let revD := domain.reverse
    let tldRev := revD.takeWhile (fun c => c ≠ '.')
    match revD.dropWhile (fun c => c ≠ '.') with
    | '.' :: preRev =>
      !localPart.isEmpty && localPart.all emailLocalChar &&
        2 ≤ tldRev.length && tldRev.all isAsciiLetter &&
        !preRev.isEmpty && preRev.all emailDomainChar
    | _ => false
  | _ => false

/-- Embeds `sanitizeEmail(email)` on a string input (lower-case, strip to the
allowed character set, trim, then keep only if the format regex accepts). -/
def sanitizeEmail (email : String) : String :=
  let cleaned := trimChars ((email.data.map Char.toLower).filter emailKeep)
  if emailRegexTest cleaned then ⟨cleaned⟩ else ""

/-! ## `sanitizeNumber` (inputSanitization.js lines 168–190) -/

/-- The options record of `sanitizeNumber`; `none` bounds are the source's
`±Infinity` defaults. -/
structure NumOptions where
  min : Option ℚ
  max : Option ℚ
  defaultValue : ℚ
  allowFloat : Bool
deriving DecidableEq

/-- Embeds `sanitizeNumber(input, options)`: the numeric input after `parseFloat`
(`none` = `NaN`/non-finite, which yields `defaultValue`); otherwise floor
when `!allowFloat`, then `Math.max(min, Math.min(max, num))`. -/
def sanitizeNumber (input : Option ℚ) (o : NumOptions) : ℚ :=
  match input with
  | none => o.defaultValue
  | some n0 =>
    let n1 : ℚ := if o.allowFloat then n0 else (⌊n0⌋ : ℤ)
    let n2 := match o.max with
      | some m => min m n1
      | none => n1
    match o.min with
    | some m => max m n2
    | none => n2

/-- The options `sanitizeTaskData` passes for `rating`:
`{ min: 0, max: 10, defaultValue: 0, allowFloat: true }`. -/
def ratingNumOptions : NumOptions := ⟨some 0, some 10, 0, true⟩

/-- The labels branch of `sanitizeTaskData` (inputSanitization.js lines
290–295): sanitize each entry (`maxLength: 50, allowHTML: false`), drop
empties, cap at 10. -/
def sanitizeTaskLabels (ls : List JsVal) : List String :=
  ((ls.map (fun l => sanitizeInput l ⟨50, false, true⟩)).filter
    (fun l => 0 < l.length)).take 10

/-! ## `addNewTask` (useTaskManagement.js lines 830–846) -/

/-- Embeds `getPriorityColor` (useTaskManagement.js lines 921–929):
`colors[priority] || '#f97316'`. -/
def getPriorityColor (p : String) : String :=
  if p = "Critical" then "#8b1538"
  else if p = "High" then "#dc2626"
  else if p = "Medium" then "#f97316"
  else if p = "Low" then "#eab308"
  else "#f97316"

/-- The id draw `Math.floor(1000 + Math.random() * 9000)` with `r` the value
from `[0, 1)`. -/
def genId (r : ℚ) : ℤ := ⌊1000 + r * 9000⌋

/-- The caller-supplied `taskData` argument of `addNewTask`: `some` means
the key is present (with a defined value), `none` that it is absent. -/
structure TaskData where
  id : Option TaskId
  title : Option String
  details : Option String
  labels : Option (List String)
  priority : Option String
  rating : Option ℚ
  starred : Option Bool
  status : Option String
  dueDate : Option String
  createdAt : Option ℤ
deriving DecidableEq

/-- The empty `taskData` `{}`. -/
def TaskData.empty : TaskData :=
  ⟨none, none, none, none, none, none, none, none, none, none⟩

/-- The argument `taskData.priority || 'Medium'` (what `getPriorityColor` is
called with; an empty string is falsy). -/
def priorityOrMedium (p : Option String) : String :=
  match p with
  | some s => if s = "" then "Medium" else s
  | none => "Medium"

/-- The task object `addNewTask` constructs.  Each defaulted field is
written `field: taskData.field || default` and then overridden by the
trailing `...taskData` spread, so the caller's value wins whenever the key
is present — even a falsy one (and in particular a present `id`, `rating`
or `createdAt` overrides the generated/default one). -/
def buildNewTask (r : ℚ) (now : ℤ) (d : TaskData) : Task :=
  Task.mk
    (match d.id with
      | some i => i
      | none => .num (genId r))               -- id: Math.floor(1000 + Math.random() * 9000)
    (d.title.getD "New Task")                 -- title: taskData.title || 'New Task'
    (d.details.getD "")                       -- details: taskData.details || ''
    (d.labels.getD [])                        -- labels: taskData.labels || []
    (d.priority.getD "Medium")                -- priority: taskData.priority || 'Medium'
    (some (d.rating.getD (8.8 : ℚ)))          -- rating: taskData.rating || 8.8
    (d.starred.getD false)                    -- starred: taskData.starred || false
    (d.status.getD "")                        -- status: taskData.status || ''
    (d.createdAt.getD now)                    -- createdAt: new Date().toISOString()
    (d.dueDate.getD "")                       -- dueDate: taskData.dueDate || ''
    (getPriorityColor (priorityOrMedium d.priority))

/-! ## Spec-modelled kanban reducers

`kanbanSlice.js` is not among the provided sources; the reducers the claims
need are modelled from the specification. -/

/-- The store-operation errors of spec §7. -/
inductive KbError where
  | notFound
  | validation
deriving DecidableEq

/-- Modelled from the spec: the `addTask` reducer of `kanbanSlice` —
"appends to the end of `columnId`'s list. Fails with `NotFoundError` if
`columnId` does not exist" (spec §4.1).  No uniqueness check is made on the
task's id (spec §9 flags the random id scheme's latent duplicate-id bug). -/
def kbAddTask (st : KanbanState) (cid : String) (t : Task) :
    Except KbError KanbanState :=
  match lookupTasks st cid with
  | none => .error .notFound
  | some _ =>
    .ok ⟨st.columns,
      st.tasks.map (fun ct => if ct.1 == cid then (ct.1, ct.2 ++ [t]) else ct),
      st.labels⟩

/-- A patch passed to `editTask`; `some` = field present in the patch. -/
structure TaskPatch where
  title : Option String
  details : Option String
  labels : Option (List String)
  priority : Option String
  rating : Option ℚ
  starred : Option Bool
  status : Option String
  dueDate : Option String
deriving DecidableEq

/-- The patch `{rating: q}`. -/
def TaskPatch.ratingOnly (q : ℚ) : TaskPatch :=
  ⟨none, none, none, none, some q, none, none, none⟩

/-- Modelled from the spec: merging a validated patch into a task —
"merges validated fields into the task" (spec §4.1), with "numeric range
clamping for `rating` to `[0,10]`" (spec §4.3, "rating is clamped, not
rejected"); the clamp is the source's `sanitizeNumber` with the rating
bounds `sanitizeTaskData` uses.  Enum-membership validation of `priority`
is not modelled (no claim depends on it). -/
def applyPatch (p : TaskPatch) (t : Task) : Task :=
  Task.mk
    t.id
    (p.title.getD t.title)
    (p.details.getD t.details)
    (p.labels.getD t.labels)
    (p.priority.getD t.priority)
    (match p.rating with
      | some q => some (sanitizeNumber (some q) ratingNumOptions)
      | none => t.rating)
    (p.starred.getD t.starred)
    (p.status.getD t.status)
    t.createdAt
    (p.dueDate.getD t.dueDate)
    t.priorityColor

/-- First task with the given id in a single column list. -/
def findInList (tid : TaskId) : List Task → Option Task
  | [] => none
  | t :: ts => if t.id == tid then some t else findInList tid ts

/-- First task with the given id across a list of columns. -/
def findTaskIn (tid : TaskId) : List (String × List Task) → Option Task
  | [] => none
  | ct :: rest =>
    match findInList tid ct.2 with
    | some t => some t
    | none => findTaskIn tid rest

/-- First task with the given id across all columns. -/
def findTask (st : KanbanState) (tid : TaskId) : Option Task :=
  findTaskIn tid st.tasks

/-- Modelled from the spec: the `editTask` reducer of `kanbanSlice` —
"merges validated fields into the task wherever it currently resides; does
not change column membership. Fails with `NotFoundError` if missing"
(spec §4.1). -/
def kbEditTask (st : KanbanState) (tid : TaskId) (p : TaskPatch) :
    Except KbError KanbanState :=
  match findTask st tid with
  | none => .error .notFound
  | some _ =>
    .ok ⟨st.columns,
      st.tasks.map (fun ct =>
        (ct.1, ct.2.map (fun t => if t.id == tid then applyPatch p t else t))),
      st.labels⟩

/-! ## An array heap, for the aliasing claim

`processedTasks` starts from `[...kanban.tasks[columnId]]` (a fresh copy),
each applied `Array.prototype.filter` allocates a fresh array, and the
in-place `Array.prototype.sort` mutates only the array `columnTasks` then
refers to.  To state that the projector never mutates stored arrays and
returns unshared ones, we model arrays as cells of a heap (`List` indexed
by allocation order) and replay the projector's allocations. -/

/-- A heap of task arrays; a reference is an index. -/
abbrev Heap := List (List Task)

/-- Read a heap cell (out-of-range reads a dummy `[]`; the theorems only
read live cells). -/
def readH : Heap → Nat → List Task
  | [], _ => []
  | a :: _, 0 => a
  | _ :: h, n + 1 => readH h n

/-- Overwrite a heap cell in place (the effect of the in-place `sort`). -/
def writeH : Heap → Nat → List Task → Heap
  | [], _, _ => []
  | _ :: h, 0, v => v :: h
  | a :: h, n + 1, v => a :: writeH h n v

/-- Allocate a fresh array. -/
def allocH (h : Heap) (a : List Task) : Heap × Nat := (h ++ [a], h.length)

/-- The search stage on the heap: an applied `filter` allocates a fresh
array, an unapplied one leaves the working reference alone. -/
def searchStageH (f : FilterSpec) (p : Heap × Nat) : Heap × Nat :=
  if f.search ≠ "" then
    allocH p.1 ((readH p.1 p.2).filter (matchesSearch f.search))
  else p

/-- The label stage on the heap. -/
def labelStageH (f : FilterSpec) (p : Heap × Nat) : Heap × Nat :=
  match f.label with
  | .unset => p
  | .single lid =>
    if lid ≠ "" then allocH p.1 (filterTasksByLabel (readH p.1 p.2) lid)
    else p
  | .multi lids => allocH p.1 ((readH p.1 p.2).filter (matchesAnyLabel lids))

/-- The priority stage on the heap. -/
def priorityStageH (f : FilterSpec) (p : Heap × Nat) : Heap × Nat :=
  if f.priority ≠ "" then
    allocH p.1 ((readH p.1 p.2).filter (fun t => t.priority == f.priority))
  else p

/-- The sort stage on the heap: `Array.prototype.sort` mutates the working
array in place. -/
def sortStageH (f : FilterSpec) (p : Heap × Nat) : Heap × Nat :=
  (writeH p.1 p.2 (applySort f.sort (readH p.1 p.2)), p.2)

/-- The per-column projection with its allocations made explicit:
`[...stored]` allocates the working copy, each applied filter stage
allocates its result, and the sort overwrites the working array in place.
Returns the heap and the reference `processedTasks` stores in `result`. -/
def projectColumnH (h : Heap) (stored : Nat) (f : FilterSpec) : Heap × Nat :=
  sortStageH f (priorityStageH f (labelStageH f (searchStageH f
    (allocH h (readH h stored)))))

/-- The projector's working state after a stage, relative to the heap `h0`
it started from: the heap has only grown, every original cell reads
unchanged, and the working reference is a live post-`h0` cell holding the
value `v` of the corresponding pure stage. -/
def StageOK (h0 : Heap) (p : Heap × Nat) (v : List Task) : Prop :=
  h0.length ≤ p.1.length ∧
  (∀ i, i < h0.length → readH p.1 i = readH h0 i) ∧
  h0.length ≤ p.2 ∧ p.2 < p.1.length ∧ readH p.1 p.2 = v

/-- The whole projection over the store's per-column arrays (given by their
heap references), left to right as `Object.keys(kanban.tasks).forEach`. -/
def projectAllH (h : Heap) (cols : List Nat) (f : FilterSpec) : Heap × List Nat :=
  match cols with
  | [] => (h, [])
  | c :: cs =>
    let p := projectColumnH h c f
    let q := projectAllH p.1 cs f
    (q.1, p.2 :: q.2)

/-! ## The auth slice (`authSlice.js`) and its collaborators

The `login`/`signup` thunks are embedded as state-transition functions
over a model state that bundles the Redux store (auth + kanban slices)
with the browser-storage environment they read and write (the registered
users and the persisted per-user snapshots).  The `await` of the simulated
API delay is a pure suspension and disappears in the embedding. -/

/-- Modelled from the spec: the default seed the store resets to —
"a small set of default columns, no tasks" (spec §6; the columns are the
`initialState` shown in the repository README). -/
def initialKanban : KanbanState :=
  ⟨[⟨"backlog", "Backlog", 0⟩, ⟨"todo", "To Do", 1⟩],
    [("backlog", []), ("todo", [])], []⟩

/-- The payload `login`/`signup` fulfil with (`{ email, id }`). -/
structure UserInfo where
  email : String
  id : ℤ
deriving DecidableEq

/-- A registered user as stored in `kanban_registered_users`. -/
structure RegUser where
  id : ℤ
  email : String
  password : String
  createdAt : ℤ
deriving DecidableEq

/-- The auth slice state. -/
structure AuthState where
  isAuthenticated : Bool
  user : Option UserInfo
  error : Option String
  loading : Bool
deriving DecidableEq

/-- Modelled from the spec: the value `loadPersistedState` resolves to for
a known user — the persisted snapshot, which the `login` thunk destructures
as `{ kanban }` (a `none` kanban slot falls to the reset branch). -/
structure PersistedSnapshot where
  kanban : Option KanbanState
deriving DecidableEq

/-- The model state: the two Redux slices plus the browser-storage
environment (registered users; persisted snapshots keyed by email, a
missing key being `loadPersistedState`'s `null` return, spec §6). -/
structure ModelState where
  auth : AuthState
  kanban : KanbanState
  registered : List RegUser
  persisted : List (String × PersistedSnapshot)
deriving DecidableEq

/-- Modelled from the spec: `loadPersistedState(userKey)` returns the
persisted snapshot for that user "or null" (spec §6). -/
def loadPersistedState (st : ModelState) (email : String) :
    Option PersistedSnapshot :=
  (st.persisted.find? (fun p => p.1 == email)).map (fun p => p.2)

/-- Modelled from the spec: `clearUserData(email)` drops the persisted
snapshots keyed by that user identity; it does not touch the store. -/
def clearUserData (st : ModelState) (email : String) : ModelState :=
  ⟨st.auth, st.kanban, st.registered, st.persisted.filter (fun p => p.1 != email)⟩

/-- Dispatching `resetKanbanState()` (modelled from the spec: `resetState()`
"restores the default seed", spec §6). -/
def resetKanban (st : ModelState) : ModelState :=
  ⟨st.auth, initialKanban, st.registered, st.persisted⟩

/-- Dispatching `setKanbanFromLocalStorage(k)` (modelled from the spec:
`replaceState(snapshot)` "hydrates the store wholesale", spec §6). -/
def setKanban (st : ModelState) (k : KanbanState) : ModelState :=
  ⟨st.auth, k, st.registered, st.persisted⟩

/-- The `pending` extra-reducer of both thunks:
`loading = true; error = null`. -/
def authPending (st : ModelState) : ModelState :=
  ⟨⟨st.auth.isAuthenticated, st.auth.user, none, true⟩,
    st.kanban, st.registered, st.persisted⟩

/-- A thunk ending in `rejectWithValue(msg)` and its `rejected`
extra-reducer: `error = payload; loading = false`. -/
def authRejected (st : ModelState) (msg : String) :
    Except String UserInfo × ModelState :=
  (.error msg,
    ⟨⟨st.auth.isAuthenticated, st.auth.user, some msg, false⟩,
      st.kanban, st.registered, st.persisted⟩)

/-- A thunk fulfilling with `u` and its `fulfilled` extra-reducer:
`isAuthenticated = true; user = payload; loading = false; error = null`. -/
def authFulfilled (st : ModelState) (u : UserInfo) :
    Except String UserInfo × ModelState :=
  (.ok u, ⟨⟨true, some u, none, false⟩, st.kanban, st.registered, st.persisted⟩)

/-- The `login` thunk (authSlice.js lines 30–92) together with its
extra-reducers: sanitize and validate, look the user up, on success clear
and reset when switching users, then hydrate from the persisted snapshot.
When `loadPersistedState` returns `null` the destructuring
`const { kanban } = ...` throws, the `catch` turns it into
`rejectWithValue('Login failed. Please try again.')` — *after* any
user-switch reset has already been dispatched. -/
def login (st0 : ModelState) (email password : String) :
    Except String UserInfo × ModelState :=
  let st := authPending st0
  let se := sanitizeEmail email
  let sp := sanitizeInput (.str password) ⟨100, false, false⟩
  if se = "" then authRejected st "Please enter a valid email address"
  else if sp = "" then authRejected st "Password is required"
  else
    match st.registered.find? (fun u => u.email == se) with
    | none => authRejected st "User not registered. Please sign up first."
    | some u =>
      if u.password ≠ sp then authRejected st "Invalid password"
      else
        let st1 :=
          match st.auth.user with
          | some cu =>
            if cu.email ≠ se then resetKanban (clearUserData st cu.email) else st
          | none => st
        match loadPersistedState st1 se with
        | none => authRejected st1 "Login failed. Please try again."
        | some snap =>
          match snap.kanban with
          | some k => authFulfilled (setKanban st1 k) ⟨u.email, u.id⟩
          | none => authFulfilled (resetKanban st1) ⟨u.email, u.id⟩

/-- The `signup` thunk (authSlice.js lines 98–154) together with its
extra-reducers: sanitize, validate, reject a duplicate registration, else
append the new user to the registered list.  It never dispatches a kanban
action. -/
def signup (st0 : ModelState) (now : ℤ) (email password : String) :
    Except String UserInfo × ModelState :=
  let st := authPending st0
  let se := sanitizeEmail email
  let sp := sanitizeInput (.str password) ⟨100, false, false⟩
  if se = "" then authRejected st "Please enter a valid email address"
  else if sp.length < 6 then
    authRejected st "Password must be at least 6 characters long"
  else if 50 < sp.length then
    authRejected st "Password must be less than 50 characters"
  else
    match st.registered.find? (fun u => u.email == se) with
    | some _ => authRejected st "User already registered. Please login instead."
    | none =>
      let nu : RegUser := ⟨now, se, sp, now⟩
      let st1 : ModelState :=
        ⟨st.auth, st.kanban, st.registered ++ [nu], st.persisted⟩
      authFulfilled st1 ⟨nu.email, nu.id⟩

/-- The sort enum (spec §3) and its `filters.sort` strings. -/
inductive SortKey where
  | date
  | dateAsc
  | priority
  | priorityAsc
  | title
  | titleDesc
  | rating
  | ratingAsc
deriving DecidableEq

/-- The `filters.sort` string of each sort key. -/
def sortKeyStr : SortKey → String
  | .date => "date"
  | .dateAsc => "date-asc"
  | .priority => "priority"
  | .priorityAsc => "priority-asc"
  | .title => "title"
  | .titleDesc => "title-desc"
  | .rating => "rating"
  | .ratingAsc => "rating-asc"

/-- Two tasks have equal sort keys under the comparator a sort key selects:
equal instants for the date sorts, equal `priorityOrder` ranks for the
priority sorts, equal titles for the title sorts (the modelled
`localeCompare` returns `0` exactly for equal strings), and equal
`rating || 0` values for the rating sorts. -/
def sameKey : SortKey → Task → Task → Bool
  | .date, a, b => decide (a.createdAt = b.createdAt)
  | .dateAsc, a, b => decide (a.createdAt = b.createdAt)
  | .priority, a, b => decide (priorityRank a.priority = priorityRank b.priority)
  | .priorityAsc, a, b => decide (priorityRank a.priority = priorityRank b.priority)
  | .title, a, b => decide (a.title = b.title)
  | .titleDesc, a, b => decide (a.title = b.title)
  | .rating, a, b => decide (ratingOr0 a = ratingOr0 b)
  | .ratingAsc, a, b => decide (ratingOr0 a = ratingOr0 b)

/-- The `priorityOrder` rank of a task, read as a number (the claims using
it restrict to tasks whose priority is in the enum). -/
def prank (t : Task) : ℚ := (priorityRank t.priority).getD 0

/-- A task's priority is one of the four enum values. -/
def validPriority (t : Task) : Prop :=
  t.priority = "Critical" ∨ t.priority = "High" ∨
    t.priority = "Medium" ∨ t.priority = "Low"

instance (t : Task) : Decidable (validPriority t) := by
  unfold validPriority; infer_instance

/-- A concrete task, for evaluating the theorems on explicit inputs. -/
def mkTask (i : ℤ) (ti de : String) (ls : List String) (pr : String)
    (ra : ℚ) (created : ℤ) : Task :=
  ⟨.num i, ti, de, ls, pr, some ra, false, "", created, "", "#f97316"⟩

/-- The concrete filter of the C1 evaluation:
`search="sql"`, `label=["lbl-A"]`, `priority="High"`. -/
def specC1 : FilterSpec := ⟨"sql", .multi ["lbl-A"], "High", ""⟩

/-- A task matching all three C1 predicates. -/
def taskC1 : Task := mkTask 1 "SQL injection" "" ["lbl-A"] "High" 5 0

/-- A concrete column for the C1 evaluation: only `taskC1` matches all
three predicates (the second fails the priority, the third the label). -/
def tasksC1 : List Task :=
  [taskC1, mkTask 2 "SQL audit" "" ["lbl-A"] "Low" 5 1,
    mkTask 3 "XSS" "found by sql scan" ["lbl-B"] "High" 5 2]

/-- A `taskData` that omits priority, rating and createdAt but carries an
`id` field — the C5 counterexample input. -/
def dC5 : TaskData :=
  ⟨some (.str "X"), none, none, none, none, none, none, none, none, none⟩

/-- A `taskData` carrying eleven label ids (and an explicit id) — the C8
counterexample input. -/
def dC8 : TaskData :=
  ⟨some (.num 42), none, none,
    some ["1", "2", "3", "4", "5", "6", "7", "8", "9", "10", "11"],
    none, none, none, none, none, none⟩

/-- A non-seed board, distinguishable from the reset state — the board the
C6 counterexample starts from. -/
def kanbanC6 : KanbanState := ⟨[], [("c", [taskC1])], []⟩

/-- The C6 counterexample state: a different user (`old@x.co`) is signed
in, the board holds `kanbanC6`, the user `a@b.co` is registered with
password `secret`, and no snapshot is persisted for `a@b.co` (so
`loadPersistedState` returns null). -/
def stC6 : ModelState :=
  ⟨⟨true, some ⟨"old@x.co", 1⟩, none, false⟩, kanbanC6,
    [⟨2, "a@b.co", "secret", 0⟩], []⟩

/-! ## Lemmas about the stable sort -/

theorem mem_insertSorted {c : Task → Task → Option ℚ} {a x : Task} :
    ∀ {l : List Task}, x ∈ insertSorted c a l ↔ x = a ∨ x ∈ l := by
  intro l
  induction l with
  | nil => simp [insertSorted]
  | cons b bs ih =>
    by_cases h : jsGt (c a b) = true
    · simp only [insertSorted, h, if_true, List.mem_cons, ih]
      tauto
    · simp only [insertSorted, Bool.not_eq_true] at h ⊢
      simp [h, List.mem_cons]

theorem perm_insertSorted (c : Task → Task → Option ℚ) (a : Task) :
    ∀ (l : List Task), (insertSorted c a l).Perm (a :: l) := by
  intro l
  induction l with
  | nil => simp [insertSorted]
  | cons b bs ih =>
    by_cases h : jsGt (c a b) = true
    · simp only [insertSorted, h, if_true]
      exact (ih.cons b).trans (List.Perm.swap a b bs)
    · simp only [insertSorted, Bool.not_eq_true] at h
      simp [insertSorted, h]

theorem perm_stableSort (c : Task → Task → Option ℚ) :
    ∀ (l : List Task), (stableSort c l).Perm l := by
  intro l
  induction l with
  | nil => simp [stableSort]
  | cons a as ih =>
    exact (perm_insertSorted c a (stableSort c as)).trans (ih.cons a)

theorem mem_stableSort {c : Task → Task → Option ℚ} {x : Task} {l : List Task} :
    x ∈ stableSort c l ↔ x ∈ l :=
  (perm_stableSort c l).mem_iff

/-- Stability, one insertion step: inserting `a` never crosses an element
whose key equals `a`'s (the comparator returns a non-positive or `NaN`
result on equal keys), so filtering by any key class commutes with the
insertion. -/
theorem insertSorted_filter (c : Task → Task → Option ℚ) (p : Task → Bool)
    (H : ∀ x y, p x = true → p y = true → jsGt (c x y) = false)
    (a : Task) :
    ∀ (l : List Task),
      (insertSorted c a l).filter p =
        if p a then a :: l.filter p else l.filter p := by
  intro l
  induction l with
  | nil => cases hpa : p a <;> simp [insertSorted, List.filter_cons, hpa]
  | cons b bs ih =>
    by_cases hgt : jsGt (c a b) = true
    · simp only [insertSorted, hgt, if_true]
      by_cases hpa : p a = true
      · have hpb : p b = false := by
          by_contra hb
          rw [Bool.not_eq_false] at hb
          exact absurd (H a b hpa hb) (by simp [hgt])
        simp [List.filter_cons, hpb, ih, hpa]
      · rw [Bool.not_eq_true] at hpa
        by_cases hpb : p b = true
        · simp [List.filter_cons, hpb, ih, hpa]
        · rw [Bool.not_eq_true] at hpb
          simp [List.filter_cons, hpb, ih, hpa]
    · rw [Bool.not_eq_true] at hgt
      simp only [insertSorted, hgt, Bool.false_eq_true, if_false]
      by_cases hpa : p a = true
      · simp [List.filter_cons, hpa]
      · rw [Bool.not_eq_true] at hpa
        simp [List.filter_cons, hpa]

/-- Stability of the stable sort: the subsequence of tasks in any key class
(tasks whose keys the comparator treats as equal) is unchanged. -/
theorem stableSort_filter (c : Task → Task → Option ℚ) (p : Task → Bool)
    (H : ∀ x y, p x = true → p y = true → jsGt (c x y) = false) :
    ∀ (l : List Task), (stableSort c l).filter p = l.filter p := by
  intro l
  induction l with
  | nil => rfl
  | cons a as ih =>
    rw [stableSort, insertSorted_filter c p H, ih, List.filter_cons]

/-- Sortedness, one insertion step, for a comparator that agrees with a
numeric key on the elements involved. -/
theorem insertSorted_pairwise (c : Task → Task → Option ℚ) (k : Task → ℚ)
    (a : Task) :
    ∀ (l : List Task),
      (∀ b ∈ l, (jsGt (c a b) = true ↔ k b < k a)) →
      l.Pairwise (fun x y => k x ≤ k y) →
      (insertSorted c a l).Pairwise (fun x y => k x ≤ k y) := by
  intro l
  induction l with
  | nil => simp [insertSorted]
  | cons b bs ih =>
    intro Hc hl
    rw [List.pairwise_cons] at hl
    by_cases hgt : jsGt (c a b) = true
    · simp only [insertSorted, hgt, if_true]
      rw [List.pairwise_cons]
      refine ⟨?_, ih (fun x hx => Hc x (List.mem_cons_of_mem b hx)) hl.2⟩
      intro x hx
      rcases mem_insertSorted.mp hx with rfl | hx'
      · exact le_of_lt ((Hc b (List.mem_cons_self b bs)).mp hgt)
      · exact hl.1 x hx'
    · rw [Bool.not_eq_true] at hgt
      simp only [insertSorted, hgt, Bool.false_eq_true, if_false]
      have hab : k a ≤ k b := by
        have := (Hc b (List.mem_cons_self b bs)).not.mp (by simp [hgt])
        exact le_of_not_lt this
      rw [List.pairwise_cons]
      refine ⟨?_, List.pairwise_cons.mpr hl⟩
      intro x hx
      rcases List.mem_cons.mp hx with rfl | hx'
      · exact hab
      · exact le_trans hab (hl.1 x hx')

/-- The stable sort sorts: when the comparator is the numeric-key
difference on every pair of list elements, the output is ordered by the
key. -/
theorem stableSort_pairwise (c : Task → Task → Option ℚ) (k : Task → ℚ) :
    ∀ (l : List Task),
      (∀ a b, a ∈ l → b ∈ l → (jsGt (c a b) = true ↔ k b < k a)) →
      (stableSort c l).Pairwise (fun x y => k x ≤ k y) := by
  intro l
  induction l with
  | nil => simp [stableSort]
  | cons a as ih =>
    intro Hc
    rw [stableSort]
    refine insertSorted_pairwise c k a (stableSort c as) ?_ ?_
    · intro b hb
      exact Hc a b (List.mem_cons_self a as)
        (List.mem_cons_of_mem a (mem_stableSort.mp hb))
    · exact ih (fun x y hx hy =>
        Hc x y (List.mem_cons_of_mem a hx) (List.mem_cons_of_mem a hy))

theorem applySort_eq_date (l : List Task) :
    applySort "date" l = stableSort cmpDate l := rfl

theorem applySort_eq_dateAsc (l : List Task) :
    applySort "date-asc" l = stableSort cmpDateAsc l := rfl

theorem applySort_eq_priority (l : List Task) :
    applySort "priority" l = stableSort cmpPriority l := rfl

theorem applySort_eq_priorityAsc (l : List Task) :
    applySort "priority-asc" l = stableSort cmpPriorityAsc l := rfl

theorem applySort_eq_title (l : List Task) :
    applySort "title" l = stableSort cmpTitle l := rfl

theorem applySort_eq_titleDesc (l : List Task) :
    applySort "title-desc" l = stableSort cmpTitleDesc l := rfl

theorem applySort_eq_rating (l : List Task) :
    applySort "rating" l = stableSort cmpRating l := rfl

theorem applySort_eq_ratingAsc (l : List Task) :
    applySort "rating-asc" l = stableSort cmpRatingAsc l := rfl

/-- On an in-enum priority, `priorityOrder` yields the defined rank. -/
theorem priorityRank_of_valid {t : Task} (h : validPriority t) :
    priorityRank t.priority = some (prank t) := by
  rcases h with h | h | h | h <;> simp [priorityRank, prank, h]

theorem perm_applySort (s : String) (l : List Task) :
    (applySort s l).Perm l := by
  unfold applySort
  split_ifs <;> first | exact perm_stableSort _ l | exact List.Perm.refl l

theorem mem_applySort {s : String} {l : List Task} {x : Task} :
    x ∈ applySort s l ↔ x ∈ l :=
  (perm_applySort s l).mem_iff

/-! ## Claim C1 — filter composition -/

/-- With a search string, a label array and a priority all set, the three
filter stages compose into one conjunctive filter. -/
theorem filterPipeline_all_set (f : FilterSpec) (stored : List Task)
    (arr : List String) (hs : f.search ≠ "") (hl : f.label = .multi arr)
    (hp : f.priority ≠ "") :
    filterPipeline f stored =
      stored.filter (fun t =>
        matchesSearch f.search t && matchesAnyLabel arr t &&
          (t.priority == f.priority)) := by
  simp only [filterPipeline, searchStep, labelStep, priorityStep, hs, hl, hp,
    ne_eq, not_false_iff, if_true]
  rw [List.filter_filter, List.filter_filter]
  apply List.filter_congr
  intro t _
  cases matchesSearch f.search t <;> cases matchesAnyLabel arr t <;>
    cases t.priority == f.priority <;> rfl

/-- C1. When a search string, a label-id array and a priority are all
set, the projected list for a column consists of exactly the stored tasks
satisfying all three predicates: the lower-cased search term occurs in the
title or the details (case-insensitively), the task's labels meet the label
array (OR within the array), and the priority matches exactly. -/
theorem claim1_filter_composition (f : FilterSpec) (stored : List Task)
    (arr : List String) (hs : f.search ≠ "") (hl : f.label = .multi arr)
    (hp : f.priority ≠ "") :
    (processColumn f stored).Perm
      (stored.filter (fun t =>
        matchesSearch f.search t && matchesAnyLabel arr t &&
          (t.priority == f.priority))) ∧
    ∀ t, t ∈ processColumn f stored ↔
      t ∈ stored ∧ matchesSearch f.search t = true ∧
        matchesAnyLabel arr t = true ∧ t.priority = f.priority := by
  have hpipe := filterPipeline_all_set f stored arr hs hl hp
  constructor
  · rw [processColumn, hpipe]
    exact perm_applySort _ _
  · intro t
    rw [processColumn, mem_applySort, hpipe, List.mem_filter]
    simp [Bool.and_eq_true, and_assoc]

/-- Evaluation of C1: `search="sql"`, `label=["lbl-A"]`, `priority="High"`
on a three-task column in which only `taskC1` satisfies all three
predicates. -/
theorem claim1_witness :
    (processColumn specC1 tasksC1).Perm
      (tasksC1.filter (fun t =>
        matchesSearch "sql" t && matchesAnyLabel ["lbl-A"] t &&
          (t.priority == "High"))) ∧
    (taskC1 ∈ processColumn specC1 tasksC1 ↔
      taskC1 ∈ tasksC1 ∧ matchesSearch "sql" taskC1 = true ∧
        matchesAnyLabel ["lbl-A"] taskC1 = true ∧ taskC1.priority = "High") :=
  ⟨(claim1_filter_composition specC1 tasksC1 ["lbl-A"]
      (by decide) rfl (by decide)).1,
    (claim1_filter_composition specC1 tasksC1 ["lbl-A"]
      (by decide) rfl (by decide)).2 taskC1⟩

/-! ## Claim C2 — sort stability -/

/-- C2. For every column's task list and every sort key of the sort
enum, tasks whose sort keys are equal under the chosen comparator appear in
the sorted output in the same relative order they had before sorting: for
any key class (the tasks sharing the key of a reference task `t`), the
filtered subsequence is unchanged by the sort. -/
theorem claim2_sort_stability (sk : SortKey) (l : List Task) (t : Task) :
    (applySort (sortKeyStr sk) l).filter (fun x => sameKey sk x t) =
      l.filter (fun x => sameKey sk x t) := by
  cases sk
  case date =>
    rw [show sortKeyStr .date = "date" from rfl, applySort_eq_date]
    apply stableSort_filter
    intro x y hx hy
    simp only [sameKey, decide_eq_true_eq] at hx hy
    simp [cmpDate, jsGt, hx, hy]
  case dateAsc =>
    rw [show sortKeyStr .dateAsc = "date-asc" from rfl, applySort_eq_dateAsc]
    apply stableSort_filter
    intro x y hx hy
    simp only [sameKey, decide_eq_true_eq] at hx hy
    simp [cmpDateAsc, jsGt, hx, hy]
  case priority =>
    rw [show sortKeyStr .priority = "priority" from rfl, applySort_eq_priority]
    apply stableSort_filter
    intro x y hx hy
    simp only [sameKey, decide_eq_true_eq] at hx hy
    rw [cmpPriority, hx, hy]
    cases priorityRank t.priority <;> simp [jsSub, jsGt]
  case priorityAsc =>
    rw [show sortKeyStr .priorityAsc = "priority-asc" from rfl,
      applySort_eq_priorityAsc]
    apply stableSort_filter
    intro x y hx hy
    simp only [sameKey, decide_eq_true_eq] at hx hy
    rw [cmpPriorityAsc, hx, hy]
    cases priorityRank t.priority <;> simp [jsSub, jsGt]
  case title =>
    rw [show sortKeyStr .title = "title" from rfl, applySort_eq_title]
    apply stableSort_filter
    intro x y hx hy
    simp only [sameKey, decide_eq_true_eq] at hx hy
    simp [cmpTitle, strCmp, jsGt, hx, hy]
  case titleDesc =>
    rw [show sortKeyStr .titleDesc = "title-desc" from rfl,
      applySort_eq_titleDesc]
    apply stableSort_filter
    intro x y hx hy
    simp only [sameKey, decide_eq_true_eq] at hx hy
    simp [cmpTitleDesc, strCmp, jsGt, hx, hy]
  case rating =>
    rw [show sortKeyStr .rating = "rating" from rfl, applySort_eq_rating]
    apply stableSort_filter
    intro x y hx hy
    simp only [sameKey, decide_eq_true_eq] at hx hy
    simp [cmpRating, jsGt, hx, hy]
  case ratingAsc =>
    rw [show sortKeyStr .ratingAsc = "rating-asc" from rfl,
      applySort_eq_ratingAsc]
    apply stableSort_filter
    intro x y hx hy
    simp only [sameKey, decide_eq_true_eq] at hx hy
    simp [cmpRatingAsc, jsGt, hx, hy]

/-! ## Lemmas for C9: every sanitizing pass only removes or deactivates
characters; none introduces one that was not in its input (newline
flattening introduces only spaces). -/

theorem mem_of_mem_dropTag :
    ∀ {l r : List Char}, dropTag l = some r → ∀ {c}, c ∈ r → c ∈ l := by
  intro l
  induction l with
  | nil => intro r h; simp [dropTag] at h
  | cons x xs ih =>
    intro r h c hc
    by_cases hx : x = '>'
    · simp only [dropTag, hx, if_pos] at h
      cases h
      exact List.mem_cons_of_mem _ hc
    · simp only [dropTag, hx, if_neg, if_false] at h
      exact List.mem_cons_of_mem _ (ih h hc)

theorem mem_stripTagsGo :
    ∀ (fuel : Nat) (l : List Char) {c}, c ∈ stripTagsGo fuel l → c ∈ l := by
  intro fuel
  induction fuel with
  | zero => intro l c hc; cases l <;> exact hc
  | succ fuel ih =>
    intro l c hc
    match l with
    | [] => exact absurd hc (List.not_mem_nil c)
    | x :: xs =>
      by_cases hx : x = '<'
      · rw [stripTagsGo, if_pos hx] at hc
        match hdt : dropTag xs with
        | some rest =>
          rw [hdt] at hc
          exact List.mem_cons_of_mem _ (mem_of_mem_dropTag hdt (ih rest hc))
        | none =>
          rw [hdt] at hc
          rcases List.mem_cons.mp hc with rfl | hc'
          · exact List.mem_cons_self _ _
          · exact List.mem_cons_of_mem _ (ih xs hc')
      · rw [stripTagsGo, if_neg hx] at hc
        rcases List.mem_cons.mp hc with rfl | hc'
        · exact List.mem_cons_self _ _
        · exact List.mem_cons_of_mem _ (ih xs hc')

theorem mem_stripTags {l : List Char} {c : Char} (h : c ∈ stripTags l) :
    c ∈ l :=
  mem_stripTagsGo l.length l h

theorem mem_stripJsProtoGo :
    ∀ (fuel : Nat) (l : List Char) {c}, c ∈ stripJsProtoGo fuel l → c ∈ l := by
  intro fuel
  induction fuel with
  | zero => intro l c hc; cases l <;> exact hc
  | succ fuel ih =>
    intro l c hc
    match l with
    | [] => exact absurd hc (List.not_mem_nil c)
    | x :: xs =>
      by_cases hx : startsWithJsProto (x :: xs) = true
      · rw [stripJsProtoGo, if_pos hx] at hc
        exact List.mem_of_mem_drop (ih _ hc)
      · rw [stripJsProtoGo, if_neg hx] at hc
        rcases List.mem_cons.mp hc with rfl | hc'
        · exact List.mem_cons_self _ _
        · exact List.mem_cons_of_mem _ (ih xs hc')

theorem mem_stripJsProto {l : List Char} {c : Char} (h : c ∈ stripJsProto l) :
    c ∈ l :=
  mem_stripJsProtoGo l.length l h

theorem mem_of_matchOnHandler :
    ∀ {l r : List Char}, matchOnHandler l = some r → ∀ {c}, c ∈ r → c ∈ l := by
  intro l r h c hc
  match l, h with
  | c1 :: c2 :: rest, h =>
    rw [matchOnHandler] at h
    by_cases hon : (c1.toLower = 'o' && c2.toLower = 'n') = true
    · rw [if_pos hon] at h
      by_cases hw : (rest.takeWhile isWordChar).isEmpty = true
      · simp [hw] at h
      · simp only [hw, Bool.false_eq_true, if_false] at h
        cases hm : (rest.dropWhile isWordChar).dropWhile isSpaceChar with
        | nil => rw [hm] at h; cases h
        | cons e es =>
          rw [hm] at h
          have h' : (if e = '=' then some es else none) = some r := h
          by_cases he : e = '='
          · rw [if_pos he] at h'
            cases h'
            have h1 : c ∈ (rest.dropWhile isWordChar).dropWhile isSpaceChar := by
              rw [hm]; exact List.mem_cons_of_mem _ hc
            have h2 : c ∈ rest.dropWhile isWordChar :=
              (List.dropWhile_sublist _).mem h1
            have h3 : c ∈ rest := (List.dropWhile_sublist _).mem h2
            exact List.mem_cons_of_mem _ (List.mem_cons_of_mem _ h3)
          · rw [if_neg he] at h'
            cases h'
    · rw [if_neg hon] at h
      cases h

theorem mem_stripOnHandlersGo :
    ∀ (fuel : Nat) (l : List Char) {c}, c ∈ stripOnHandlersGo fuel l → c ∈ l := by
  intro fuel
  induction fuel with
  | zero => intro l c hc; cases l <;> exact hc
  | succ fuel ih =>
    intro l c hc
    match l with
    | [] => exact absurd hc (List.not_mem_nil c)
    | x :: xs =>
      rw [stripOnHandlersGo] at hc
      match hm : matchOnHandler (x :: xs) with
      | some rest =>
        rw [hm] at hc
        exact mem_of_matchOnHandler hm (ih rest hc)
      | none =>
        rw [hm] at hc
        rcases List.mem_cons.mp hc with rfl | hc'
        · exact List.mem_cons_self _ _
        · exact List.mem_cons_of_mem _ (ih xs hc')

theorem mem_stripOnHandlers {l : List Char} {c : Char}
    (h : c ∈ stripOnHandlers l) : c ∈ l :=
  mem_stripOnHandlersGo l.length l h

theorem mem_trimChars {l : List Char} {c : Char} (h : c ∈ trimChars l) :
    c ∈ l := by
  rw [trimChars] at h
  rw [List.mem_reverse] at h
  have h1 := (List.dropWhile_sublist _).mem h
  rw [List.mem_reverse] at h1
  exact (List.dropWhile_sublist _).mem h1

theorem mem_of_mem_ite_take {P : Prop} [Decidable P] {l : List Char}
    {n : Nat} {c : Char} (h : c ∈ (if P then List.take n l else l)) : c ∈ l := by
  by_cases hp : P
  · rw [if_pos hp] at h
    exact List.mem_of_mem_take h
  · rwa [if_neg hp] at h

/-! ## Claim C9 — `sanitizeInput` bounds -/

/-- C9. `sanitizeInput` always returns a string of length at most
`maxLength`; with `allowHTML: false` the result contains none of `<`, `>`,
`"`, `'`; and any non-string input yields `''`. -/
theorem claim9_sanitize_input (v : JsVal) (o : SanOptions) :
    (sanitizeInput v o).length ≤ o.maxLength ∧
    (o.allowHTML = false → ∀ c ∈ (sanitizeInput v o).data,
      c ≠ '<' ∧ c ≠ '>' ∧ c ≠ '"' ∧ c ≠ '\'') ∧
    sanitizeInput .nonString o = "" := by
  refine ⟨?_, ?_, rfl⟩
  · match v with
    | .nonString => simp [sanitizeInput, String.length]
    | .str s =>
      show (sanitizeChars s.data o).length ≤ o.maxLength
      rw [sanitizeChars]
      set s4 := trimChars _ with hs4
      by_cases hlen : o.maxLength < s4.length
      · simp only [hlen, if_pos]
        simp [List.length_take]
      · simp only [hlen, if_neg, if_false]
        exact le_of_not_lt hlen
  · intro hhtml c hc
    match v with
    | .nonString => simp [sanitizeInput] at hc
    | .str s =>
      have hc' : c ∈ sanitizeChars s.data o := hc
      rw [sanitizeChars] at hc'
      simp only [hhtml, Bool.false_eq_true, if_false] at hc'
      have hc3 := mem_trimChars (mem_of_mem_ite_take hc')
      have hcd : isDanger c = false := by
        by_cases hnl : o.preserveNewlines = true
        · rw [if_pos hnl] at hc3
          have hmem :=
            List.mem_filter.mp (mem_stripJsProto (mem_stripOnHandlers hc3))
          simpa using hmem.2
        · rw [if_neg hnl] at hc3
          rcases List.mem_map.mp hc3 with ⟨d, hd, hdc⟩
          by_cases hdr : (d = '\r' || d = '\n') = true
          · rw [if_pos hdr] at hdc
            rw [← hdc]; rfl
          · rw [if_neg hdr] at hdc
            rw [← hdc]
            have hmem :=
              List.mem_filter.mp (mem_stripJsProto (mem_stripOnHandlers hd))
            simpa using hmem.2
      simp only [isDanger, Bool.or_eq_false_iff, decide_eq_false_iff_not] at hcd
      exact ⟨hcd.1.1.1, hcd.1.1.2, hcd.1.2, hcd.2⟩

/-- Evaluation of C9 on a concrete hostile input. -/
theorem claim9_witness :
    (sanitizeInput (.str "<img onerror=x>a'b\"c") ⟨4, false, true⟩).length ≤ 4 ∧
    ∀ c ∈ (sanitizeInput (.str "<img onerror=x>a'b\"c") ⟨4, false, true⟩).data,
      c ≠ '<' ∧ c ≠ '>' ∧ c ≠ '"' ∧ c ≠ '\'' :=
  ⟨(claim9_sanitize_input (.str "<img onerror=x>a'b\"c") ⟨4, false, true⟩).1,
    (claim9_sanitize_input (.str "<img onerror=x>a'b\"c") ⟨4, false, true⟩).2.1
      rfl⟩

/-! ## Claim C7 — the priority sorts order by rank -/

/-- C7. On a list whose tasks all have a priority in
{Critical, High, Medium, Low}, sort key `priority` produces the same tasks
ordered by the rank `Critical=4, High=3, Medium=2, Low=1` descending, and
`priority-asc` produces them ascending. -/
theorem claim7_priority_sort_order (l : List Task)
    (H : ∀ t ∈ l, validPriority t) :
    (applySort "priority" l).Perm l ∧
    (applySort "priority" l).Pairwise (fun a b => prank b ≤ prank a) ∧
    (applySort "priority-asc" l).Perm l ∧
    (applySort "priority-asc" l).Pairwise (fun a b => prank a ≤ prank b) := by
  refine ⟨?_, ?_, ?_, ?_⟩
  · rw [applySort_eq_priority]; exact perm_stableSort _ l
  · rw [applySort_eq_priority]
    have h := stableSort_pairwise cmpPriority (fun t => -prank t) l ?_
    · exact h.imp (fun hxy => by simpa using hxy)
    · intro a b ha hb
      rw [cmpPriority, priorityRank_of_valid (H a ha),
        priorityRank_of_valid (H b hb)]
      simp [jsSub, jsGt, sub_pos]
  · rw [applySort_eq_priorityAsc]; exact perm_stableSort _ l
  · rw [applySort_eq_priorityAsc]
    apply stableSort_pairwise cmpPriorityAsc prank l
    intro a b ha hb
    rw [cmpPriorityAsc, priorityRank_of_valid (H a ha),
      priorityRank_of_valid (H b hb)]
    simp [jsSub, jsGt, sub_pos]

/-! ## Lemmas about the spec-modelled store reducers -/

/-- Editing rewrites a column list pointwise; looking the id up afterwards
finds the patched task. -/
theorem findInList_map_edit (tid : TaskId) (p : TaskPatch) :
    ∀ ts : List Task,
      findInList tid
          (ts.map (fun t => if t.id == tid then applyPatch p t else t)) =
        (findInList tid ts).map (applyPatch p) := by
  intro ts
  induction ts with
  | nil => rfl
  | cons t ts ih =>
    have hid : (applyPatch p t).id = t.id := rfl
    by_cases h : (t.id == tid) = true
    · simp [findInList, h, hid]
    · simp only [List.map_cons, if_neg h, findInList]
      exact ih

theorem findTaskIn_map_edit (tid : TaskId) (p : TaskPatch) :
    ∀ cts : List (String × List Task),
      findTaskIn tid
          (cts.map (fun ct =>
            (ct.1, ct.2.map (fun t => if t.id == tid then applyPatch p t else t)))) =
        (findTaskIn tid cts).map (applyPatch p) := by
  intro cts
  induction cts with
  | nil => rfl
  | cons ct rest ih =>
    simp only [List.map_cons, findTaskIn, findInList_map_edit]
    cases h : findInList tid ct.2 with
    | some t => simp [h]
    | none =>
      simp only [h, Option.map_none']
      exact ih

/-- Association-list `find?` commutes with a map that keeps every key. -/
theorem find?_map_keyPreserving (g : String × List Task → String × List Task)
    (hg : ∀ ct, (g ct).1 = ct.1) (cid : String) :
    ∀ l : List (String × List Task),
      (l.map g).find? (fun ct => ct.1 == cid) =
        (l.find? (fun ct => ct.1 == cid)).map g := by
  intro l
  induction l with
  | nil => rfl
  | cons x xs ih =>
    by_cases h : (x.1 == cid) = true
    · simp [List.find?_cons, hg x, h]
    · rw [Bool.not_eq_true] at h
      simp [List.find?_cons, hg x, h, ih]

/-- The spec-modelled `addTask` reducer appends to the addressed column,
whatever that column already contains (in particular it performs no
task-id uniqueness check). -/
theorem kbAddTask_append (st : KanbanState) (cid : String) (ts : List Task)
    (t : Task) (hcol : lookupTasks st cid = some ts) :
    (kbAddTask st cid t).toOption.bind (fun st1 => lookupTasks st1 cid) =
      some (ts ++ [t]) := by
  rw [kbAddTask, hcol]
  rcases Option.map_eq_some'.mp hcol with ⟨ct0, hfind, hct0⟩
  have hp := List.find?_some hfind
  show lookupTasks ⟨st.columns, _, st.labels⟩ cid = some (ts ++ [t])
  rw [lookupTasks]
  rw [find?_map_keyPreserving _ (fun ct => by split <;> rfl) cid, hfind]
  simp only [Option.map_some']
  rw [if_pos hp]
  simp [hct0]

/-! ## Claim C3 — `editTask` clamps an out-of-range rating -/

/-- C3. For every existing task id, `editTask(id, {rating: 15})`
followed by a read-back yields rating `10`, and `editTask(id, {rating: -3})`
yields rating `0`: the mutation clamps the rating into `[0,10]` (via the
source's `sanitizeNumber` bounds) instead of rejecting or storing it. -/
theorem claim3_rating_clamp (st : KanbanState) (tid : TaskId) (t0 : Task)
    (h : findTask st tid = some t0) :
    ((kbEditTask st tid (TaskPatch.ratingOnly 15)).toOption.bind
        (fun st1 => findTask st1 tid)).map Task.rating = some (some 10) ∧
    ((kbEditTask st tid (TaskPatch.ratingOnly (-3))).toOption.bind
        (fun st1 => findTask st1 tid)).map Task.rating = some (some 0) := by
  constructor
  · rw [kbEditTask, h]
    show ((findTask ⟨st.columns, _, st.labels⟩ tid).map Task.rating = _)
    rw [findTask, findTaskIn_map_edit, show findTaskIn tid st.tasks = some t0 from h]
    show some (applyPatch (TaskPatch.ratingOnly 15) t0).rating = some (some 10)
    have : (applyPatch (TaskPatch.ratingOnly 15) t0).rating =
        some (sanitizeNumber (some 15) ratingNumOptions) := rfl
    rw [this]
    norm_num [sanitizeNumber, ratingNumOptions]
  · rw [kbEditTask, h]
    show ((findTask ⟨st.columns, _, st.labels⟩ tid).map Task.rating = _)
    rw [findTask, findTaskIn_map_edit, show findTaskIn tid st.tasks = some t0 from h]
    show some (applyPatch (TaskPatch.ratingOnly (-3)) t0).rating = some (some 0)
    have : (applyPatch (TaskPatch.ratingOnly (-3)) t0).rating =
        some (sanitizeNumber (some (-3)) ratingNumOptions) := rfl
    rw [this]
    norm_num [sanitizeNumber, ratingNumOptions]

/-- Evaluation of C3 on a concrete one-task store. -/
theorem claim3_witness :
    ((kbEditTask ⟨[⟨"backlog", "Backlog", 0⟩],
          [("backlog", [mkTask 7 "t" "" [] "High" 5 0])], []⟩
        (.num 7) (TaskPatch.ratingOnly 15)).toOption.bind
      (fun st1 => findTask st1 (.num 7))).map Task.rating = some (some 10) ∧
    ((kbEditTask ⟨[⟨"backlog", "Backlog", 0⟩],
          [("backlog", [mkTask 7 "t" "" [] "High" 5 0])], []⟩
        (.num 7) (TaskPatch.ratingOnly (-3))).toOption.bind
      (fun st1 => findTask st1 (.num 7))).map Task.rating = some (some 0) :=
  claim3_rating_clamp
    ⟨[⟨"backlog", "Backlog", 0⟩],
      [("backlog", [mkTask 7 "t" "" [] "High" 5 0])], []⟩
    (.num 7) (mkTask 7 "t" "" [] "High" 5 0) (by decide)

/-! ## Claim C5 — `addTask` defaults (corrected: the trailing
`...taskData` spread also lets a present `id` key override the generated
id, so the claim additionally needs `taskData` to omit `id`) -/

/-- C5, counterexample. `dC5` omits priority, rating and createdAt,
yet the constructed task's id is the caller's string `"X"`, not the
generated numeric id: the claim as stated fails for a `taskData` carrying
an `id` field. -/
theorem claim5_counterexample :
    dC5.priority = none ∧ dC5.rating = none ∧ dC5.createdAt = none ∧
    (buildNewTask (1/2) 0 dC5).id ≠ TaskId.num (genId (1/2)) :=
  ⟨rfl, rfl, rfl, fun h => TaskId.noConfusion h⟩

/-- C5, amended. For every existing column id and every `taskData`
that omits `id`, `priority`, `rating` and `createdAt`, `addTask` constructs
a task with the generated id, priority `Medium`, rating `8.8` and
`createdAt = now`, and appends it at the end of that column's list. -/
theorem claim5_add_task_defaults (st : KanbanState) (cid : String)
    (ts : List Task) (r : ℚ) (now : ℤ) (d : TaskData)
    (hid : d.id = none) (hpr : d.priority = none) (hra : d.rating = none)
    (hca : d.createdAt = none) (hcol : lookupTasks st cid = some ts) :
    (buildNewTask r now d).id = .num (genId r) ∧
    (buildNewTask r now d).priority = "Medium" ∧
    (buildNewTask r now d).rating = some (8.8 : ℚ) ∧
    (buildNewTask r now d).createdAt = now ∧
    (kbAddTask st cid (buildNewTask r now d)).toOption.bind
        (fun st1 => lookupTasks st1 cid) =
      some (ts ++ [buildNewTask r now d]) := by
  refine ⟨?_, ?_, ?_, ?_, kbAddTask_append st cid ts _ hcol⟩
  · rw [buildNewTask, hid]
  · rw [buildNewTask, hpr]; rfl
  · rw [buildNewTask, hra]; rfl
  · rw [buildNewTask, hca]; rfl

/-- Evaluation of amended C5: an empty `taskData` added to the seed
store's `backlog` column. -/
theorem claim5_witness :
    (buildNewTask (1/2) 77 TaskData.empty).id = .num (genId (1/2)) ∧
    (buildNewTask (1/2) 77 TaskData.empty).priority = "Medium" ∧
    (buildNewTask (1/2) 77 TaskData.empty).rating = some (8.8 : ℚ) ∧
    (buildNewTask (1/2) 77 TaskData.empty).createdAt = 77 ∧
    (kbAddTask initialKanban "backlog"
        (buildNewTask (1/2) 77 TaskData.empty)).toOption.bind
      (fun st1 => lookupTasks st1 "backlog") =
        some ([] ++ [buildNewTask (1/2) 77 TaskData.empty]) :=
  claim5_add_task_defaults initialKanban "backlog" [] (1/2) 77 TaskData.empty
    rfl rfl rfl rfl (by decide)

/-! ## Claim C8 — the per-task label cap (corrected: only the sanitizer
enforces it; `addNewTask` stores the caller's labels unchanged) -/

/-- C8, counterexample. A task-creating operation applied to a
`taskData` carrying eleven labels stores a task with eleven label ids:
`addNewTask` itself enforces no cap. -/
theorem claim8_counterexample :
    10 < (buildNewTask 0 0 dC8).labels.length ∧
    ((kbAddTask initialKanban "backlog" (buildNewTask 0 0 dC8)).toOption.bind
        (fun st1 => lookupTasks st1 "backlog")).map
      (fun l => l.map (fun t => t.labels.length)) = some [11] := by
  constructor
  · decide
  · decide

/-- C8, amended. The 10-label cap is enforced by `sanitizeTaskData`
(which truncates to ten); `addNewTask` stores the caller-supplied labels
array unchanged, so every task created from sanitizer-capped labels has at
most ten label ids, but the store operation itself does not re-enforce the
cap. -/
theorem claim8_label_cap (ls : List JsVal) (r : ℚ) (now : ℤ) (d : TaskData)
    (hcap : ∀ L, d.labels = some L → L.length ≤ 10) :
    (sanitizeTaskLabels ls).length ≤ 10 ∧
    (buildNewTask r now d).labels.length ≤ 10 := by
  constructor
  · rw [sanitizeTaskLabels]
    exact List.length_take_le 10 _
  · cases hL : d.labels with
    | none => simp [buildNewTask, hL]
    | some L =>
      have hbl : (buildNewTask r now d).labels = L := by
        simp [buildNewTask, hL]
      rw [hbl]
      exact hcap L hL

/-- Evaluation of amended C8: a twelve-entry raw labels array is capped at
ten by the sanitizer, and a `taskData` whose labels passed the cap yields a
stored task within the cap. -/
theorem claim8_witness :
    (sanitizeTaskLabels
        [.str "a", .str "b", .str "c", .str "d", .str "e", .str "f",
          .str "g", .str "h", .str "i", .str "j", .str "k", .str "l"]).length
      ≤ 10 ∧
    (buildNewTask 0 0
        ⟨some (.num 1), none, none, some ["x", "y"], none, none, none, none,
          none, none⟩).labels.length ≤ 10 :=
  claim8_label_cap
    [.str "a", .str "b", .str "c", .str "d", .str "e", .str "f",
      .str "g", .str "h", .str "i", .str "j", .str "k", .str "l"]
    0 0
    ⟨some (.num 1), none, none, some ["x", "y"], none, none, none, none,
      none, none⟩
    (by intro L hL; cases hL; decide)

/-! ## Claim C10 — the generated id -/

/-- C10. When `taskData` has no `id` field, the id `addNewTask`
generates is `Math.floor(1000 + r * 9000)`, an integer in `[1000, 9999]`
for every random draw `r ∈ [0,1)`; and the id is not checked for
uniqueness: the spec-modelled `addTask` reducer appends the task whatever
task ids the column already holds. -/
theorem claim10_generated_id (r : ℚ) (h0 : 0 ≤ r) (h1 : r < 1) (now : ℤ)
    (d : TaskData) (hid : d.id = none) :
    (buildNewTask r now d).id = .num (genId r) ∧
    1000 ≤ genId r ∧ genId r ≤ 9999 ∧
    ∀ (st : KanbanState) (cid : String) (ts : List Task),
      lookupTasks st cid = some ts →
      (kbAddTask st cid (buildNewTask r now d)).toOption.bind
          (fun st1 => lookupTasks st1 cid) =
        some (ts ++ [buildNewTask r now d]) := by
  refine ⟨by rw [buildNewTask, hid], ?_, ?_,
    fun st cid ts hcol => kbAddTask_append st cid ts _ hcol⟩
  · rw [genId, Int.le_floor]
    push_cast
    nlinarith
  · have : genId r < 10000 := by
      rw [genId, Int.floor_lt]
      push_cast
      nlinarith
    omega

/-- Evaluation of C10 at `r = 1/2` on the seed store's `backlog` column
(which already contains no task, so the append is visible directly). -/
theorem claim10_witness :
    (buildNewTask (1/2) 0 TaskData.empty).id = .num (genId (1/2)) ∧
    1000 ≤ genId (1/2) ∧ genId (1/2) ≤ 9999 ∧
    (kbAddTask initialKanban "backlog"
        (buildNewTask (1/2) 0 TaskData.empty)).toOption.bind
      (fun st1 => lookupTasks st1 "backlog") =
        some ([] ++ [buildNewTask (1/2) 0 TaskData.empty]) := by
  have h := claim10_generated_id (1/2) (by norm_num) (by norm_num) 0
    TaskData.empty rfl
  exact ⟨h.1, h.2.1, h.2.2.1, h.2.2.2 initialKanban "backlog" [] (by decide)⟩

/-- Evaluation of C7 on a concrete mixed-priority column. -/
theorem claim7_witness :
    ((applySort "priority"
        [mkTask 1 "a" "" [] "Low" 5 0, mkTask 2 "b" "" [] "Critical" 5 1,
          mkTask 3 "c" "" [] "Medium" 5 2]).Perm
      [mkTask 1 "a" "" [] "Low" 5 0, mkTask 2 "b" "" [] "Critical" 5 1,
        mkTask 3 "c" "" [] "Medium" 5 2] ∧
    (applySort "priority"
        [mkTask 1 "a" "" [] "Low" 5 0, mkTask 2 "b" "" [] "Critical" 5 1,
          mkTask 3 "c" "" [] "Medium" 5 2]).Pairwise
      (fun a b => prank b ≤ prank a) ∧
    (applySort "priority-asc"
        [mkTask 1 "a" "" [] "Low" 5 0, mkTask 2 "b" "" [] "Critical" 5 1,
          mkTask 3 "c" "" [] "Medium" 5 2]).Perm
      [mkTask 1 "a" "" [] "Low" 5 0, mkTask 2 "b" "" [] "Critical" 5 1,
        mkTask 3 "c" "" [] "Medium" 5 2] ∧
    (applySort "priority-asc"
        [mkTask 1 "a" "" [] "Low" 5 0, mkTask 2 "b" "" [] "Critical" 5 1,
          mkTask 3 "c" "" [] "Medium" 5 2]).Pairwise
      (fun a b => prank a ≤ prank b)) :=
  claim7_priority_sort_order
    [mkTask 1 "a" "" [] "Low" 5 0, mkTask 2 "b" "" [] "Critical" 5 1,
      mkTask 3 "c" "" [] "Medium" 5 2] (by decide)

/-! ## Lemmas about the array heap, for C4 -/

theorem readH_append_lt (h h2 : Heap) :
    ∀ i, i < h.length → readH (h ++ h2) i = readH h i := by
  induction h with
  | nil => intro i hi; exact absurd hi (Nat.not_lt_zero i)
  | cons a h ih =>
    intro i hi
    match i with
    | 0 => rfl
    | i + 1 => exact ih i (Nat.lt_of_succ_lt_succ hi)

theorem readH_append_self (h : Heap) (a : List Task) :
    readH (h ++ [a]) h.length = a := by
  induction h with
  | nil => rfl
  | cons b h ih => exact ih

theorem length_writeH (h : Heap) (v : List Task) :
    ∀ j, (writeH h j v).length = h.length := by
  induction h with
  | nil => intro j; rfl
  | cons a h ih =>
    intro j
    match j with
    | 0 => rfl
    | j + 1 => exact congrArg Nat.succ (ih j)

theorem readH_writeH_ne (h : Heap) (v : List Task) :
    ∀ i j, i ≠ j → readH (writeH h j v) i = readH h i := by
  induction h with
  | nil => intro i j _; rfl
  | cons a h ih =>
    intro i j hij
    match i, j with
    | 0, 0 => exact absurd rfl hij
    | 0, j + 1 => rfl
    | i + 1, 0 => rfl
    | i + 1, j + 1 => exact ih i j (fun hh => hij (congrArg Nat.succ hh))

theorem readH_writeH_self (h : Heap) (v : List Task) :
    ∀ j, j < h.length → readH (writeH h j v) j = v := by
  induction h with
  | nil => intro j hj; exact absurd hj (Nat.not_lt_zero j)
  | cons a h ih =>
    intro j hj
    match j with
    | 0 => rfl
    | j + 1 => exact ih j (Nat.lt_of_succ_lt_succ hj)

/-- Allocating on a heap that extends `h0` yields a good working state. -/
theorem allocH_stageOK (h0 h1 : Heap) (v : List Task)
    (hlen : h0.length ≤ h1.length)
    (hread : ∀ i, i < h0.length → readH h1 i = readH h0 i) :
    StageOK h0 (allocH h1 v) v := by
  refine ⟨?_, ?_, hlen, ?_, ?_⟩
  · rw [allocH]
    simp only [List.length_append, List.length_cons, List.length_nil]
    omega
  · intro i hi
    rw [allocH]
    rw [readH_append_lt h1 [v] i (lt_of_lt_of_le hi hlen)]
    exact hread i hi
  · rw [allocH]
    simp only [List.length_append, List.length_cons, List.length_nil]
    omega
  · exact readH_append_self h1 v

theorem searchStageH_ok (f : FilterSpec) {h0 : Heap} {p : Heap × Nat}
    {v : List Task} (hp : StageOK h0 p v) :
    StageOK h0 (searchStageH f p) (searchStep f v) := by
  rw [searchStageH, searchStep]
  by_cases hs : f.search ≠ ""
  · rw [if_pos hs, if_pos hs, hp.2.2.2.2]
    exact allocH_stageOK h0 p.1 _ hp.1 hp.2.1
  · rw [if_neg hs, if_neg hs]
    exact hp

theorem labelStageH_ok (f : FilterSpec) {h0 : Heap} {p : Heap × Nat}
    {v : List Task} (hp : StageOK h0 p v) :
    StageOK h0 (labelStageH f p) (labelStep f v) := by
  cases hfl : f.label with
  | unset =>
    simp only [labelStageH, labelStep, hfl]
    exact hp
  | single lid =>
    by_cases hl : lid ≠ ""
    · simp only [labelStageH, labelStep, hfl]
      rw [if_pos hl, if_pos hl, hp.2.2.2.2]
      exact allocH_stageOK h0 p.1 _ hp.1 hp.2.1
    · simp only [labelStageH, labelStep, hfl]
      rw [if_neg hl, if_neg hl]
      exact hp
  | multi lids =>
    simp only [labelStageH, labelStep, hfl]
    rw [hp.2.2.2.2]
    exact allocH_stageOK h0 p.1 _ hp.1 hp.2.1

theorem priorityStageH_ok (f : FilterSpec) {h0 : Heap} {p : Heap × Nat}
    {v : List Task} (hp : StageOK h0 p v) :
    StageOK h0 (priorityStageH f p) (priorityStep f v) := by
  rw [priorityStageH, priorityStep]
  by_cases hpr : f.priority ≠ ""
  · rw [if_pos hpr, if_pos hpr, hp.2.2.2.2]
    exact allocH_stageOK h0 p.1 _ hp.1 hp.2.1
  · rw [if_neg hpr, if_neg hpr]
    exact hp

theorem sortStageH_ok (f : FilterSpec) {h0 : Heap} {p : Heap × Nat}
    {v : List Task} (hp : StageOK h0 p v) :
    StageOK h0 (sortStageH f p) (applySort f.sort v) := by
  rcases hp with ⟨hlen, hread, hr1, hr2, hv⟩
  refine ⟨?_, ?_, hr1, ?_, ?_⟩
  · rw [sortStageH]
    simp only [length_writeH]
    exact hlen
  · intro i hi
    rw [sortStageH]
    show readH (writeH p.1 p.2 _) i = readH h0 i
    rw [readH_writeH_ne p.1 _ i p.2 (by omega)]
    exact hread i hi
  · rw [sortStageH]
    simp only [length_writeH]
    exact hr2
  · rw [sortStageH]
    show readH (writeH p.1 p.2 _) p.2 = _
    rw [readH_writeH_self p.1 _ p.2 hr2, hv]

/-- The per-column projection leaves every original heap cell unchanged
and leaves its result, the pure `processColumn` of the stored list, in a
fresh post-`h` cell. -/
theorem projectColumnH_spec (h : Heap) (stored : Nat) (f : FilterSpec) :
    StageOK h (projectColumnH h stored f) (processColumn f (readH h stored)) := by
  have s1 : StageOK h (allocH h (readH h stored)) (readH h stored) :=
    allocH_stageOK h h _ le_rfl (fun i _ => rfl)
  exact sortStageH_ok f (priorityStageH_ok f (labelStageH_ok f
    (searchStageH_ok f s1)))

/-! ## Claim C4 — the projector never mutates stored arrays -/

/-- C4. Projecting every column never changes a stored task array:
after `projectAllH`, every cell of the original heap reads exactly as
before; and each returned per-column reference is a fresh (post-original)
cell — never aliased to a stored array — holding exactly the pure
filtered-and-sorted projection of that column's stored list. -/
theorem claim4_projection_frame (h : Heap) (cols : List Nat) (f : FilterSpec)
    (hc : ∀ r ∈ cols, r < h.length) :
    (∀ i, i < h.length → readH (projectAllH h cols f).1 i = readH h i) ∧
    List.Forall₂ (fun c r => h.length ≤ r ∧
        readH (projectAllH h cols f).1 r = processColumn f (readH h c))
      cols (projectAllH h cols f).2 := by
  induction cols generalizing h with
  | nil => exact ⟨fun i _ => rfl, List.Forall₂.nil⟩
  | cons c cs ih =>
    have hcol := projectColumnH_spec h c f
    rcases hcol with ⟨hlen, hread, hr1, hr2, hv⟩
    have ihh := ih (projectColumnH h c f).1
      (fun r hr => lt_of_lt_of_le (hc r (List.mem_cons_of_mem c hr)) hlen)
    rcases ihh with ⟨ihread, ihall⟩
    have hfix : ∀ i, i < h.length →
        readH (projectAllH (projectColumnH h c f).1 cs f).1 i = readH h i := by
      intro i hi
      rw [ihread i (lt_of_lt_of_le hi hlen)]
      exact hread i hi
    constructor
    · intro i hi
      show readH (projectAllH (projectColumnH h c f).1 cs f).1 i = readH h i
      exact hfix i hi
    · show List.Forall₂ _ (c :: cs)
        ((projectColumnH h c f).2 :: (projectAllH (projectColumnH h c f).1 cs f).2)
      refine List.Forall₂.cons ⟨hr1, ?_⟩ ?_
      · show readH (projectAllH (projectColumnH h c f).1 cs f).1
            (projectColumnH h c f).2 = _
        rw [ihread (projectColumnH h c f).2 hr2]
        exact hv
      · rw [List.forall₂_iff_zip] at ihall ⊢
        refine ⟨ihall.1, ?_⟩
        intro c' r' hmem
        obtain ⟨hle, heq⟩ := ihall.2 hmem
        have hc' : c' < h.length :=
          hc c' (List.mem_cons_of_mem c (List.of_mem_zip hmem).1)
        show h.length ≤ r' ∧
          readH (projectAllH (projectColumnH h c f).1 cs f).1 r' =
            processColumn f (readH h c')
        refine ⟨le_trans hlen hle, ?_⟩
        rw [heq, hread c' hc']

/-! ## Claim C6 — rejected login/signup and the board store (corrected:
when a login switches users and the persisted-snapshot lookup then returns
null, the board has already been reset when the login rejects) -/

/-- C6, counterexample. A rejected login that leaves the board store
mutated: the current user is `old@x.co`, `a@b.co` logs in with the correct
password, the user-switch branch resets the board, and the persisted
snapshot for `a@b.co` is null, so the `{ kanban }` destructuring throws and
the thunk rejects — with the board already reset away from its
pre-operation state. -/
theorem claim6_counterexample :
    (login stC6 "a@b.co" "secret").1 =
      .error "Login failed. Please try again." ∧
    (login stC6 "a@b.co" "secret").2.kanban = initialKanban ∧
    stC6.kanban ≠ initialKanban := by
  refine ⟨rfl, rfl, by decide⟩

/-- C6, amended. A rejected signup never touches the board store
(whatever the outcome, signup leaves the kanban slice unchanged), and a
rejected login leaves the board store in its pre-operation state — except
when the login was switching users and the persisted-state lookup returned
null, in which case the rejection (`'Login failed. Please try again.'`)
leaves the board reset to the initial seed. -/
theorem claim6_rejection_frame (st : ModelState) (now : ℤ) (e p : String) :
    (signup st now e p).2.kanban = st.kanban ∧
    ∀ msg, (login st e p).1 = .error msg →
      ((login st e p).2.kanban = st.kanban ∨
        ((login st e p).2.kanban = initialKanban ∧
          msg = "Login failed. Please try again.")) := by
  constructor
  · simp only [signup]
    split_ifs <;> try rfl
    split <;> rfl
  · intro msg hmsg
    simp only [login] at hmsg ⊢
    by_cases h1 : sanitizeEmail e = ""
    · rw [if_pos h1] at hmsg ⊢
      left; rfl
    · rw [if_neg h1] at hmsg ⊢
      by_cases h2 : sanitizeInput (.str p) ⟨100, false, false⟩ = ""
      · rw [if_pos h2] at hmsg ⊢
        left; rfl
      · rw [if_neg h2] at hmsg ⊢
        cases hfind : List.find? (fun u => u.email == sanitizeEmail e)
            (authPending st).registered with
        | none =>
          rw [hfind] at hmsg
          left; rfl
        | some u =>
          rw [hfind] at hmsg
          dsimp only at hmsg ⊢
          by_cases hpw : u.password ≠ sanitizeInput (.str p) ⟨100, false, false⟩
          · rw [if_pos hpw] at hmsg ⊢
            left; rfl
          · rw [if_neg hpw] at hmsg ⊢
            cases hau : (authPending st).auth.user with
            | none =>
              rw [hau] at hmsg
              dsimp only at hmsg ⊢
              cases hload : loadPersistedState (authPending st)
                  (sanitizeEmail e) with
              | none =>
                rw [hload] at hmsg
                left; rfl
              | some snap =>
                rw [hload] at hmsg
                dsimp only at hmsg
                cases hsn : snap.kanban with
                | some k =>
                  rw [hsn] at hmsg
                  exact absurd hmsg (by simp [authFulfilled])
                | none =>
                  rw [hsn] at hmsg
                  exact absurd hmsg (by simp [authFulfilled])
            | some cu =>
              rw [hau] at hmsg
              dsimp only at hmsg ⊢
              by_cases hsw : cu.email ≠ sanitizeEmail e
              · rw [if_pos hsw] at hmsg ⊢
                cases hload : loadPersistedState
                    (resetKanban (clearUserData (authPending st) cu.email))
                    (sanitizeEmail e) with
                | none =>
                  rw [hload] at hmsg
                  right
                  refine ⟨rfl, ?_⟩
                  have hmsg' : (Except.error "Login failed. Please try again."
                      : Except String UserInfo) = .error msg := hmsg
                  injection hmsg' with hh
                  exact hh.symm
                | some snap =>
                  rw [hload] at hmsg
                  dsimp only at hmsg
                  cases hsn : snap.kanban with
                  | some k =>
                    rw [hsn] at hmsg
                    exact absurd hmsg (by simp [authFulfilled])
                  | none =>
                    rw [hsn] at hmsg
                    exact absurd hmsg (by simp [authFulfilled])
              · rw [if_neg hsw] at hmsg ⊢
                cases hload : loadPersistedState (authPending st)
                    (sanitizeEmail e) with
                | none =>
                  rw [hload] at hmsg
                  left; rfl
                | some snap =>
                  rw [hload] at hmsg
                  dsimp only at hmsg
                  cases hsn : snap.kanban with
                  | some k =>
                    rw [hsn] at hmsg
                    exact absurd hmsg (by simp [authFulfilled])
                  | none =>
                    rw [hsn] at hmsg
                    exact absurd hmsg (by simp [authFulfilled])

/-- Evaluation of amended C6: a signup whose password is too short leaves
the board untouched, and a login rejected for an unregistered user leaves
the board untouched. -/
theorem claim6_witness :
    (signup stC6 9 "new@x.co" "abc").2.kanban = stC6.kanban ∧
    ((login stC6 "nobody@x.co" "secret").2.kanban = stC6.kanban ∨
      ((login stC6 "nobody@x.co" "secret").2.kanban = initialKanban ∧
        "User not registered. Please sign up first." =
          "Login failed. Please try again.")) :=
  ⟨(claim6_rejection_frame stC6 9 "new@x.co" "abc").1,
    (claim6_rejection_frame stC6 9 "nobody@x.co" "secret").2
      "User not registered. Please sign up first." rfl⟩

/-- Evaluation of C4 on a concrete two-column heap with the C1 filter:
the stored cell still reads unchanged after projection, and every returned
reference is fresh and holds the pure projection. -/
theorem claim4_witness :
    readH (projectAllH [[taskC1], []] [0, 1] specC1).1 0 =
      readH [[taskC1], []] 0 ∧
    List.Forall₂ (fun c r => 2 ≤ r ∧
        readH (projectAllH [[taskC1], []] [0, 1] specC1).1 r =
          processColumn specC1 (readH [[taskC1], []] c))
      [0, 1] (projectAllH [[taskC1], []] [0, 1] specC1).2 :=
  ⟨(claim4_projection_frame [[taskC1], []] [0, 1] specC1 (by decide)).1 0
      (by decide),
    (claim4_projection_frame [[taskC1], []] [0, 1] specC1 (by decide)).2⟩

end VB
